import Mathlib

/-!
Verification of the podenv command-line entrypoint (`podenv/main.py`).

The development shallowly embeds the data model and the operations of
`main.py`: the mutable `Env` record, the command-line override resolution
(`applyCommandLineOverride`), the environment listing (`listEnv`) and the
lifecycle orchestration of `run`.  External collaborators (the config
loader, `prepareEnv`, the podman adapter operations and the filesystem
used by `Path.resolve`) are modelled as oracles collected in a `World`
record; the orchestrator is a pure function from the oracle outcomes to
the observable trace of collaborator calls and the process outcome.
-/

namespace Podenv

/-- Python exception kinds that can cross the functions of `main.py`.
`RuntimeError` is the only kind the orchestration boundary catches. -/
inductive PyErr where
  | runtimeError (msg : String)
  | valueError (msg : String)
  | fileNotFoundError (path : String)
deriving DecidableEq, Repr

/-- Whether an exception is caught by an `except RuntimeError` clause. -/
def PyErr.isRuntimeError : PyErr → Bool
  | .runtimeError _ => true
  | _ => false

/-- Association list embedding of a Python `dict` (insertion order kept,
assignment overwrites the existing key in place, otherwise appends). -/
def dictInsert {α : Type} (d : List (String × α)) (k : String) (v : α) :
    List (String × α) :=
  match d with
  | [] => [(k, v)]
  | p :: rest => if p.1 = k then (k, v) :: rest else p :: dictInsert rest k v

/-- Association list embedding of Python `dict` subscript lookup. -/
def dictGet {α : Type} (d : List (String × α)) (k : String) : Option α :=
  match d with
  | [] => none
  | p :: rest => if p.1 = k then some p.2 else dictGet rest k

/-- The `Env` record of `podenv.env` as used by `main.py`: the mutable
environment model patched in place by `applyCommandLineOverride`.
`environ = none` models Python `None`; `capabilities` and `environ`
are Python dicts. -/
structure Env where
  envName : String := ""
  description : String := ""
  image : String := ""
  command : List String := []
  capabilities : List (String × Bool) := []
  environ : Option (List (String × String)) := none
  network : Option String := none
  home : Option String := none
  original : Option String := none
  containerFile : Option String := none
deriving DecidableEq, Repr

/-- The frozen `ExecContext` produced by `prepareEnv`, restricted to the
fields `main.py` reads. -/
structure ExecContext where
  name : String := ""
  imageName : String := ""
  runtimeArgs : List String := []
  commandArgs : List String := []
  hostPreTasks : List String := []
  hostPostTasks : List String := []
  containerFile : Option String := none
  containerUpdate : Option String := none
deriving DecidableEq, Repr

/-- The parsed `argparse.Namespace`.  Optional string flags are `none` when
absent; Python truthiness of a string flag is `truthy`.  `capFlag name`
models `getattr(args, name)` for the per-capability enable flag and
`noCapFlag name` models the matching `no_<name>` disable flag. -/
structure Args where
  verbose : Bool := false
  debug : Bool := false
  showFlag : Bool := false
  list : Bool := false
  shell : Bool := false
  rebuild : Bool := false
  update : Bool := false
  net : Option String := none
  home : Option String := none
  image : Option String := none
  environ : List String := []
  env : Option String := none
  args : List String := []
  capFlag : String → Bool := fun _ => false
  noCapFlag : String → Bool := fun _ => false

/-- Python truthiness of an optional string (`None` and `""` are falsy). -/
def truthy : Option String → Bool
  | none => false
  | some s => !s.isEmpty

/-- The `ValueError` raised by unpacking `s.split("=", 1)` into two names
when the separator is absent. -/
def unpackErr : PyErr :=
  .valueError "not enough values to unpack (expected 2, got 1)"

/-- Split a character list at the first `=`, keeping the remainder
verbatim (the behaviour of Python `split("=", 1)`). -/
def splitCharsOnEq : List Char → Option (List Char × List Char)
  | [] => none
  | c :: rest =>
    if c = '=' then some ([], rest)
    else match splitCharsOnEq rest with
      | none => none
      | some (pre, post) => some (c :: pre, post)

/-- `key, val = s.split("=", 1)`: splits at the first `=`, raising a
`ValueError` when the string holds no `=`. -/
def splitEq1 (s : String) : Except PyErr (String × String) :=
  match splitCharsOnEq s.data with
  | none => .error unpackErr
  | some (pre, post) => .ok (String.mk pre, String.mk post)

/-- The `for argsEnviron in args.environ` loop of `applyCommandLineOverride`:
each entry is split on `=`; a falsy `env.environ` is first replaced by an
empty dict; the pair is assigned into the dict. -/
def applyEnvironEntries (entries : List String) (env : Env) : Except PyErr Env :=
  match entries with
  | [] => .ok env
  | s :: rest =>
    match splitEq1 s with
    | .error e => .error e
    | .ok (k, v) =>
      let d := match env.environ with
        | none => []
        | some d => if d.isEmpty then [] else d
      applyEnvironEntries rest { env with environ := some (dictInsert d k v) }

/-- One iteration of the capability loop of `applyCommandLineOverride`:
the enable flag forces the capability to `true`, then the disable flag
forces it to `false`. -/
def capStep (args : Args) (e : Env) (name : String) : Env :=
  let e1 := if args.capFlag name
    then { e with capabilities := dictInsert e.capabilities name true } else e
  if args.noCapFlag name
    then { e1 with capabilities := dictInsert e1.capabilities name false } else e1

/-- The capability loop of `applyCommandLineOverride` over the ordered
capability table. -/
def applyCapOverrides (caps : List String) (args : Args) (env : Env) : Env :=
  caps.foldl (capStep args) env

/-- The tail of `applyCommandLineOverride` after the capability loop and
the environ entries: the shell, image, net and home overrides, in this
order.  `resolve` is the filesystem oracle behind
`Path(h).expanduser().resolve(strict=True)`: `none` models the
`FileNotFoundError` raised for a non-existing path. -/
def applyRestOverride (resolve : String → Option String) (args : Args)
    (env2 : Env) : Except PyErr Env :=
  let env3 := if args.shell then
      { env2 with capabilities := dictInsert env2.capabilities "terminal" true,
                  command := ["/bin/bash"] }
    else env2
  let env4 := if truthy args.image
    then { env3 with image := args.image.getD "" } else env3
  let env5 := if truthy args.net
    then { env4 with network := args.net } else env4
  if truthy args.home then
    match resolve (args.home.getD "") with
    | some p => .ok { env5 with home := some p }
    | none => .error (.fileNotFoundError (args.home.getD ""))
  else .ok env5

/-- `applyCommandLineOverride(args, env)` from `main.py`: the capability
flag loop, then environ entries, then the shell, image, net and home
overrides. -/
def applyCommandLineOverride (resolve : String → Option String)
    (caps : List String) (args : Args) (env0 : Env) : Except PyErr Env :=
  match applyEnvironEntries args.environ (applyCapOverrides caps args env0) with
  | .error e => .error e
  | .ok env2 => applyRestOverride resolve args env2

/-- Modelled from the spec: `getEnv` from `podenv.config` (the module is not
under `src/`): looks up `name` in the mapping produced by the config loader
and fails with a `ConfigError` (a `RuntimeError` subclass) when absent. -/
def getEnv (conf : List (String × Env)) (name : String) : Except String Env :=
  match conf.find? (fun p => p.1 = name) with
  | some p => .ok p.2
  | none => .error ("Environment " ++ name ++ " not found")

/-- Python `"{:<Ns}".format(s)`: left-justify to width `w` with spaces,
never truncating. -/
def ljust (s : String) (w : Nat) : String :=
  s ++ String.mk (List.replicate (w - s.length) ' ')

/-- `maxEnvNameLen` of `listEnv`: the longest environment key plus three. -/
def listWidth (envs : List (String × Env)) : Nat :=
  (envs.map (fun p => p.1.length)).foldl max 0 + 3

/-- Ordering used by Python `sorted(envs.items())` on a dict with unique
keys: compare the keys. -/
def keyLe (p q : String × Env) : Prop := p.1 ≤ q.1

instance : DecidableRel keyLe := fun p q =>
  inferInstanceAs (Decidable (p.1 ≤ q.1))

instance : IsTotal (String × Env) keyLe := ⟨fun a b => le_total a.1 b.1⟩

instance : IsTrans (String × Env) keyLe := ⟨fun _ _ _ h1 h2 => le_trans h1 h2⟩

/-- `listEnv(envs)` from `main.py`: the printed lines.  On an empty mapping
`max()` raises a `ValueError`; otherwise a `NAME`/`DESCRIPTION` header is
followed by one line per environment in key-sorted order, the name
left-justified to `listWidth`. -/
def listEnv (envs : List (String × Env)) : Except PyErr (List String) :=
  if envs.isEmpty then .error (.valueError "max() arg is an empty sequence")
  else
    .ok ((ljust "NAME" (listWidth envs) ++ "DESCRIPTION") ::
      (List.insertionSort keyLe envs).map
        (fun p => ljust p.2.envName (listWidth envs) ++ p.2.description))

/-- Outcome of the blocking `executePod` call: normal child exit, a
`RuntimeError` from the adapter, or a `KeyboardInterrupt` delivered while
blocked. -/
inductive ExecResult where
  | success
  | failure (msg : String)
  | interrupted
deriving DecidableEq, Repr

/-- Oracles for the external collaborators of `run`: the outcome each call
would have in this invocation.  Adapter operations fail with a
`RuntimeError` message (`some msg`); `killPod` is kept general because the
orchestrator's `except RuntimeError: pass` only swallows that kind. -/
structure World where
  loadConfig : Except String (List (String × Env))
  resolve : String → Option String := fun _ => none
  prepare : Env → List String → Except String ExecContext := fun _ _ => .ok {}
  updateImage : Option String := none
  setupImage : Option String := none
  setupPod : Option String := none
  preTasks : Option String := none
  executePod : ExecResult := .success
  killPod : Except PyErr Unit := .ok ()
  postTasks : Option String := none

/-- Observable calls made by `run`, in order. -/
inductive Event where
  | loadConfig
  | listEnv
  | usageHelp
  | getEnv (name : String)
  | showEnv
  | updateImage
  | setupImage
  | setupPod
  | preTasks
  | executePod
  | killPod (name : String)
  | postTasks
  | report (msg : String)
deriving DecidableEq, Repr

/-- Whether an event is a `killPod` adapter call. -/
def Event.isKill : Event → Bool
  | .killPod _ => true
  | _ => false

/-- Process outcome of `run`: a normal `exit(code)`, a reported failure via
`fail` (which exits 1), or an exception escaping `run` (the interpreter
then exits 1 with a traceback). -/
inductive Outcome where
  | exited (code : Nat)
  | failed (msg : String)
  | uncaught (e : PyErr)
deriving DecidableEq, Repr

/-- The process exit status each outcome produces. -/
def Outcome.exitCode : Outcome → Nat
  | .exited c => c
  | .failed _ => 1
  | .uncaught _ => 1

/-- An `except RuntimeError` handler around a failing call: with `--debug`
the error is re-raised, otherwise `fail` reports it and exits 1. -/
def caughtRTE (debug : Bool) (msg : String) : Outcome :=
  if debug then .uncaught (.runtimeError msg) else .failed msg

/-- An `except RuntimeError` handler for a general Python exception: only
`RuntimeError` is caught; anything else escapes. -/
def caughtPy (debug : Bool) (e : PyErr) : Outcome :=
  match e with
  | .runtimeError m => caughtRTE debug m
  | _ => .uncaught e

/-- The EXECUTE / post-task tail of `run`: host pre-tasks, `executePod`
with its `KeyboardInterrupt` and `RuntimeError` handlers (the interrupt
path calls `killPod` once and swallows a `RuntimeError` from it), then
host post-tasks whose `RuntimeError` is re-raised under `--debug` and
otherwise printed without touching `podResult`, then `exit(podResult)`. -/
def runExecuteTasks (w : World) (args : Args) (ctx : ExecContext) :
    List Event × Outcome :=
  let postPhase : Nat → List Event → List Event × Outcome := fun podResult evts =>
    match w.postTasks with
    | none => (evts ++ [.postTasks], .exited podResult)
    | some msg =>
      if args.debug then (evts ++ [.postTasks], .uncaught (.runtimeError msg))
      else (evts ++ [.postTasks, .report msg], .exited podResult)
  match w.preTasks with
  | some _ => postPhase 1 [.preTasks]
  | none =>
    match w.executePod with
    | .success => postPhase 0 [.preTasks, .executePod]
    | .failure _ => postPhase 1 [.preTasks, .executePod]
    | .interrupted =>
      match w.killPod with
      | .ok _ => postPhase 1 [.preTasks, .executePod, .killPod ctx.name]
      | .error e =>
        if e.isRuntimeError then
          postPhase 1 [.preTasks, .executePod, .killPod ctx.name]
        else ([.preTasks, .executePod, .killPod ctx.name], .uncaught e)

/-- The `setupImage` / `setupPod` block of `run` followed by the execute
tail; a `RuntimeError` from either setup call is caught and fails the
invocation. -/
def runSetup (w : World) (args : Args) (ctx : ExecContext) :
    List Event × Outcome :=
  match w.setupImage with
  | some msg => ([.setupImage], caughtRTE args.debug msg)
  | none =>
    match w.setupPod with
    | some msg => ([.setupImage, .setupPod], caughtRTE args.debug msg)
    | none =>
      let r := runExecuteTasks w args ctx
      ([.setupImage, .setupPod] ++ r.1, r.2)

/-- The action phase of `run` after context compilation: the `--update`
block (raising `Invalid action --update --rebuild` when both flags are
set, before any adapter call), then setup and execution. -/
def runActions (w : World) (args : Args) (ctx : ExecContext) :
    List Event × Outcome :=
  if args.update then
    if args.rebuild then
      ([], caughtRTE args.debug "Invalid action --update --rebuild")
    else
      match w.updateImage with
      | some msg => ([.updateImage], caughtRTE args.debug msg)
      | none =>
        let r := runSetup w args ctx
        (.updateImage :: r.1, r.2)
  else runSetup w args ctx

/-- The part of `run` after an environment name has been selected:
`getEnv`, command-line override resolution, context compilation, the
`--show` path, and the action phase. -/
def runSelected (w : World) (caps : List String) (args : Args)
    (conf : List (String × Env)) (name : String) : List Event × Outcome :=
  match getEnv conf name with
  | .error msg => ([.loadConfig, .getEnv name], caughtRTE args.debug msg)
  | .ok env =>
    match applyCommandLineOverride w.resolve caps args env with
    | .error e => ([.loadConfig, .getEnv name], caughtPy args.debug e)
    | .ok env2 =>
      match w.prepare env2 args.args with
      | .error msg => ([.loadConfig, .getEnv name], caughtRTE args.debug msg)
      | .ok ctx =>
        if args.showFlag then
          ([.loadConfig, .getEnv name, .showEnv], .exited 0)
        else
          let r := runActions w args ctx
          ([.loadConfig, .getEnv name] ++ r.1, r.2)

/-- `run(argv)` from `main.py`: config loading, the pure `--list` path,
selection of the environment (the positional argument if truthy, else the
unique configured environment, else printing usage and exiting 1), then
`runSelected`.  Returns the ordered trace of collaborator calls and the
process outcome. -/
def run (w : World) (caps : List String) (args : Args) :
    List Event × Outcome :=
  match w.loadConfig with
  | .error msg => ([.loadConfig], caughtRTE args.debug msg)
  | .ok conf =>
    if args.list && !args.showFlag then
      match listEnv conf with
      | .error e => ([.loadConfig, .listEnv], .uncaught e)
      | .ok _ => ([.loadConfig, .listEnv], .exited 0)
    else
      match (if truthy args.env then args.env
             else match conf with
               | [(k, _)] => some k
               | _ => none) with
      | none => ([.loadConfig, .usageHelp], .exited 1)
      | some name => runSelected w caps args conf name

/-! ### Dictionary and capability-loop lemmas -/

theorem dictGet_dictInsert_self {α : Type} (d : List (String × α)) (k : String)
    (v : α) : dictGet (dictInsert d k v) k = some v := by
  induction d with
  | nil => simp [dictInsert, dictGet]
  | cons p rest ih =>
    by_cases hp : p.1 = k
    · simp [dictInsert, dictGet, hp]
    · simp [dictInsert, dictGet, hp, ih]

theorem dictGet_dictInsert_ne {α : Type} (d : List (String × α)) (k k' : String)
    (v : α) (hk : k' ≠ k) : dictGet (dictInsert d k v) k' = dictGet d k' := by
  induction d with
  | nil => simp [dictInsert, dictGet, Ne.symm hk]
  | cons p rest ih =>
    by_cases hp : p.1 = k
    · simp [dictInsert, dictGet, hp, Ne.symm hk]
    · simp [dictInsert, dictGet, hp, ih]

theorem capStep_get_conflict (args : Args) (e : Env) (name : String)
    (hcf : args.capFlag name = true) (hncf : args.noCapFlag name = true) :
    dictGet (capStep args e name).capabilities name = some false := by
  simp [capStep, hcf, hncf, dictGet_dictInsert_self]

theorem capStep_get_other (args : Args) (e : Env) (name n : String)
    (hne : n ≠ name) :
    dictGet (capStep args e name).capabilities n = dictGet e.capabilities n := by
  unfold capStep
  by_cases h1 : args.capFlag name <;> by_cases h2 : args.noCapFlag name <;>
    simp [h1, h2, dictGet_dictInsert_ne _ _ _ _ hne]

theorem applyCapOverrides_not_mem (caps : List String) (args : Args) (env : Env)
    (n : String) (hn : n ∉ caps) :
    dictGet (applyCapOverrides caps args env).capabilities n
      = dictGet env.capabilities n := by
  induction caps generalizing env with
  | nil => rfl
  | cons c rest ih =>
    have h1 : n ∉ rest := fun h => hn (List.mem_cons_of_mem _ h)
    have h2 : n ≠ c := fun h => hn (h ▸ List.mem_cons_self _ _)
    simp only [applyCapOverrides, List.foldl_cons] at *
    rw [ih (capStep args env c) h1, capStep_get_other args env c n h2]

theorem applyCapOverrides_conflict (caps : List String) (args : Args) (env : Env)
    (name : String) (hmem : name ∈ caps)
    (hcf : args.capFlag name = true) (hncf : args.noCapFlag name = true) :
    dictGet (applyCapOverrides caps args env).capabilities name = some false := by
  induction caps generalizing env with
  | nil => cases hmem
  | cons c rest ih =>
    by_cases hr : name ∈ rest
    · simpa [applyCapOverrides] using ih (capStep args env c) hr
    · have hc : name = c := by
        rcases List.mem_cons.mp hmem with h | h
        · exact h
        · exact absurd h hr
      subst hc
      simp only [applyCapOverrides, List.foldl_cons]
      have := applyCapOverrides_not_mem rest args (capStep args env name) name hr
      simp only [applyCapOverrides] at this
      rw [this]
      exact capStep_get_conflict args env name hcf hncf

/-- The image, net and home overrides never touch `capabilities` or
`command`: a successful `applyRestOverride` keeps the capability map and
the command produced by the shell step. -/
theorem applyRestOverride_fields {res : String → Option String} {args : Args}
    {env2 env' : Env} (h : applyRestOverride res args env2 = .ok env') :
    (args.shell = true →
      env'.capabilities = dictInsert env2.capabilities "terminal" true
        ∧ env'.command = ["/bin/bash"])
      ∧ (args.shell = false →
        env'.capabilities = env2.capabilities ∧ env'.command = env2.command) := by
  unfold applyRestOverride at h
  dsimp only at h
  repeat' split at h
  all_goals cases h
  all_goals constructor <;> intro hs <;> simp_all

/-- Shape of a successful override resolution when `--shell` is set: the
shell step runs after the capability loop and the environ entries, and the
image/net/home overrides never touch `capabilities` or `command`. -/
theorem override_shell_shape {res : String → Option String} {caps : List String}
    {args : Args} {env env' : Env} (hshell : args.shell = true)
    (h : applyCommandLineOverride res caps args env = .ok env') :
    dictGet env'.capabilities "terminal" = some true
      ∧ env'.command = ["/bin/bash"] := by
  unfold applyCommandLineOverride at h
  cases he : applyEnvironEntries args.environ (applyCapOverrides caps args env) with
  | error e => rw [he] at h; cases h
  | ok env2 =>
    rw [he] at h
    obtain ⟨hcap, hcmd⟩ := (applyRestOverride_fields h).1 hshell
    rw [hcap, hcmd]
    exact ⟨dictGet_dictInsert_self _ _ _, rfl⟩

/-- A successful `applyRestOverride` exists whenever `--home` is absent
(the home resolution is the only fallible step of the tail). -/
theorem applyRestOverride_ok_of_home_none {res : String → Option String}
    {args : Args} (env2 : Env) (hhome : args.home = none) :
    ∃ env', applyRestOverride res args env2 = .ok env' := by
  unfold applyRestOverride
  rw [hhome]
  simp [truthy]

/-! ### Claim C1 -/

/-- C1, counterexample: with both `--x` and `--no-x` set for capability
`x`, `applyCommandLineOverride` does not fail: it returns successfully
with the capability silently resolved to the disabled state (the disable
branch runs after the enable branch). -/
theorem claim1_counterexample :
    applyCommandLineOverride (fun _ => none) ["x"]
      { capFlag := fun n => n == "x", noCapFlag := fun n => n == "x" } {} =
      .ok { capabilities := [("x", false)] } := by rfl

/-- C1, amended: enabling and disabling the same capability in one
invocation is not a configuration error; the overrides resolve silently,
with the disable flag winning because it is applied after the enable
flag.  (Stated for an invocation whose other fallible overrides — environ
entries and `--home` — are absent, and `--shell` unset.) -/
theorem claim1_conflict_resolves_disabled (res : String → Option String)
    (caps : List String) (args : Args) (env : Env) (name : String)
    (hmem : name ∈ caps) (hcf : args.capFlag name = true)
    (hncf : args.noCapFlag name = true) (henv : args.environ = [])
    (hshell : args.shell = false) (hhome : args.home = none) :
    ∃ env', applyCommandLineOverride res caps args env = .ok env'
      ∧ dictGet env'.capabilities name = some false := by
  obtain ⟨env', hok⟩ :=
    @applyRestOverride_ok_of_home_none res args
      (applyCapOverrides caps args env) hhome
  refine ⟨env', ?_, ?_⟩
  · unfold applyCommandLineOverride
    rw [henv]
    exact hok
  · rw [((applyRestOverride_fields hok).2 hshell).1]
    exact applyCapOverrides_conflict caps args env name hmem hcf hncf

/-- C1, witness for the amended theorem at a concrete invocation. -/
theorem claim1_witness :
    ∃ env', applyCommandLineOverride (fun _ => none) ["x"]
      { capFlag := fun n => n == "x", noCapFlag := fun n => n == "x" } {} = .ok env'
      ∧ dictGet env'.capabilities "x" = some false :=
  claim1_conflict_resolves_disabled (fun _ => none) ["x"] _ {} "x"
    (by simp) (by simp) (by simp) rfl rfl rfl

/-! ### Claim C2 -/

/-- C2, counterexample: with `--no-terminal` and `--shell` both set, the
shell override (applied after the per-capability flags) flips the
explicitly disabled `terminal` capability back to `true`: the additional
overrides do override an explicit per-capability flag. -/
theorem claim2_counterexample :
    applyCommandLineOverride (fun _ => none) ["terminal"]
      { shell := true, noCapFlag := fun n => n == "terminal" } {} =
      .ok { capabilities := [("terminal", true)], command := ["/bin/bash"] } := by
  rfl

/-- C2, amended: the shell override wins over an explicit per-capability
flag: whenever `--shell` is set — even together with `--no-terminal` — a
successful override resolution leaves `capabilities["terminal"] = true`. -/
theorem claim2_shell_overrides_capability_flag (res : String → Option String)
    (caps : List String) (args : Args) (env env' : Env)
    (hshell : args.shell = true) (hncf : args.noCapFlag "terminal" = true)
    (h : applyCommandLineOverride res caps args env = .ok env') :
    dictGet env'.capabilities "terminal" = some true :=
  (override_shell_shape hshell h).1

/-- C2, witness for the amended theorem at a concrete invocation. -/
theorem claim2_witness :
    dictGet (Env.capabilities
      { capabilities := [("terminal", true)], command := ["/bin/bash"] }) "terminal"
      = some true :=
  claim2_shell_overrides_capability_flag (fun _ => none) ["terminal"]
    { shell := true, noCapFlag := fun n => n == "terminal" } {} _
    rfl (by simp) (by rfl)

/-! ### Claim C3 -/

/-- C3: with `--shell` set, a successful override resolution always ends
with `capabilities["terminal"] = true` and the command replaced by the
single-element interactive shell invocation `["/bin/bash"]`, regardless of
the environment's prior command. -/
theorem claim3_shell_sets_terminal_and_command (res : String → Option String)
    (caps : List String) (args : Args) (env env' : Env)
    (hshell : args.shell = true)
    (h : applyCommandLineOverride res caps args env = .ok env') :
    dictGet env'.capabilities "terminal" = some true
      ∧ env'.command = ["/bin/bash"] :=
  override_shell_shape hshell h

/-- C3, witness at a concrete environment whose prior command is not a
shell. -/
theorem claim3_witness :
    dictGet (Env.capabilities
      { capabilities := [("terminal", true)], command := ["/bin/bash"] }) "terminal"
      = some true
    ∧ Env.command { capabilities := [("terminal", true)], command := ["/bin/bash"] }
      = ["/bin/bash"] :=
  claim3_shell_sets_terminal_and_command (fun _ => none) [] { shell := true }
    { command := ["/usr/bin/emacs"] } _ rfl (by rfl)

/-! ### Run-level plumbing lemmas -/

theorem truthy_some {s : String} (h : s ≠ "") : truthy (some s) = true := by
  have hb : s.isEmpty = false := by
    cases he : s.isEmpty
    · rfl
    · exact absurd ((String.isEmpty_iff s).mp he) h
  simp [truthy, hb]

theorem isEmpty_false_of_ne_nil {α : Type} {l : List α} (h : l ≠ []) :
    l.isEmpty = false := by
  cases l with
  | nil => exact absurd rfl h
  | cons a t => rfl

/-- With a loaded config, no `--list`, and a truthy positional environment
name, `run` proceeds to `runSelected` on that name. -/
theorem run_toSelected {w : World} {caps : List String} {args : Args}
    {conf : List (String × Env)} {name : String}
    (hlist : args.list = false) (hload : w.loadConfig = .ok conf)
    (henv : args.env = some name) (hn : name ≠ "") :
    run w caps args = runSelected w caps args conf name := by
  unfold run
  rw [hload]
  simp [hlist, henv, truthy_some hn]

/-- When `getEnv`, override resolution and `prepareEnv` all succeed and
`--show` is off, `runSelected` continues into the action phase. -/
theorem runSelected_toActions {w : World} {caps : List String} {args : Args}
    {conf : List (String × Env)} {name : String} {env env2 : Env}
    {ctx : ExecContext}
    (hshow : args.showFlag = false)
    (hget : getEnv conf name = .ok env)
    (hov : applyCommandLineOverride w.resolve caps args env = .ok env2)
    (hprep : w.prepare env2 args.args = .ok ctx) :
    runSelected w caps args conf name =
      ([.loadConfig, .getEnv name] ++ (runActions w args ctx).1,
        (runActions w args ctx).2) := by
  unfold runSelected
  rw [hget]
  dsimp only
  rw [hov]
  dsimp only
  rw [hprep]
  dsimp only
  rw [hshow]
  simp

/-- A failing override resolution ends `runSelected` at the orchestration
boundary: only a `RuntimeError` is reported via `fail`, anything else
escapes uncaught. -/
theorem runSelected_overrideFails {w : World} {caps : List String}
    {args : Args} {conf : List (String × Env)} {name : String} {env : Env}
    {e : PyErr}
    (hget : getEnv conf name = .ok env)
    (hov : applyCommandLineOverride w.resolve caps args env = .error e) :
    runSelected w caps args conf name
      = ([.loadConfig, .getEnv name], caughtPy args.debug e) := by
  unfold runSelected
  rw [hget]
  dsimp only
  rw [hov]

/-! ### Claim C10 -/

/-- C10: with no positional environment name and not a pure `--list`
invocation, `run` selects the unique configured environment when the
config holds exactly one (the invocation then behaves as `runSelected` on
that name), and otherwise prints the usage help and exits 1 with no
`getEnv` and no adapter call in the trace. -/
theorem claim10_env_selection (w : World) (caps : List String) (args : Args)
    (conf : List (String × Env))
    (henv : args.env = none)
    (hnl : args.list = true → args.showFlag = true)
    (hload : w.loadConfig = .ok conf) :
    (∀ k e, conf = [(k, e)] →
        run w caps args = runSelected w caps args conf k)
      ∧ (conf.length ≠ 1 →
        run w caps args = ([.loadConfig, .usageHelp], .exited 1)) := by
  have hb : (args.list && !args.showFlag) = false := by
    cases hl : args.list with
    | false => rfl
    | true => rw [hnl hl]; rfl
  constructor
  · intro k e hconf
    subst hconf
    unfold run
    rw [hload]
    simp [hb, henv, truthy]
  · intro hlen
    unfold run
    rw [hload]
    simp only [hb, Bool.false_eq_true, if_false, henv, truthy]
    match conf, hlen with
    | [], _ => rfl
    | p :: q :: rest, _ => rfl
    | [p], h => exact absurd rfl h

/-- C10, witness: two configured environments and no positional name
yield the usage-help exit. -/
theorem claim10_witness :
    run { loadConfig := .ok [("a", {}), ("b", {})] } [] {} =
      ([.loadConfig, .usageHelp], .exited 1) :=
  (claim10_env_selection { loadConfig := .ok [("a", {}), ("b", {})] } [] {}
    [("a", {}), ("b", {})] rfl (fun h => by cases h) rfl).2 (by decide)

/-! ### Claim C9 -/

theorem seed_le_foldl_max (l : List Nat) (a : Nat) : a ≤ l.foldl max a := by
  induction l generalizing a with
  | nil => exact le_refl a
  | cons b rest ih => exact le_trans (le_max_left a b) (ih (max a b))

theorem mem_le_foldl_max {l : List Nat} {x : Nat} (hx : x ∈ l) :
    ∀ a, x ≤ l.foldl max a := by
  induction hx with
  | head rest =>
    intro a
    simp only [List.foldl_cons]
    exact le_trans (le_max_right a x) (seed_le_foldl_max rest (max a x))
  | tail b hmem ih =>
    intro a
    simp only [List.foldl_cons]
    exact ih (max a b)

theorem ljust_length (s : String) (w : Nat) (h : s.length ≤ w) :
    (ljust s w).length = w := by
  simp [ljust]
  omega

/-- The names of the sorted environment rows are sorted, provided each
mapping key equals its environment's `envName` (the config-loader
contract). -/
theorem sortedEnvs_names_sorted (envs : List (String × Env))
    (hk : ∀ p ∈ envs, p.1 = p.2.envName) :
    List.Sorted (· ≤ ·)
      ((List.insertionSort keyLe envs).map (fun p => p.2.envName)) := by
  have hs : List.Sorted keyLe (List.insertionSort keyLe envs) :=
    List.sorted_insertionSort keyLe envs
  rw [List.Sorted, List.pairwise_map]
  refine List.Pairwise.imp_of_mem ?_ hs
  intro a b ha hb hab
  rw [← hk a ((List.mem_insertionSort keyLe).mp ha),
      ← hk b ((List.mem_insertionSort keyLe).mp hb)]
  exact hab

/-- C9: on a non-empty environment mapping, `listEnv` produces the
`NAME`/`DESCRIPTION` header followed by one row per environment in
key-sorted order; row names are sorted, every row is a first column of
exactly `listWidth` characters followed by exactly the environment's
description, and the `--list` invocation exits 0. -/
theorem claim9_list_table (envs : List (String × Env)) (w : World)
    (caps : List String) (args : Args)
    (hne : envs ≠ [])
    (hk : ∀ p ∈ envs, p.1 = p.2.envName)
    (hl : args.list = true) (hs : args.showFlag = false)
    (hload : w.loadConfig = .ok envs) :
    listEnv envs = .ok ((ljust "NAME" (listWidth envs) ++ "DESCRIPTION") ::
        (List.insertionSort keyLe envs).map
          (fun p => ljust p.2.envName (listWidth envs) ++ p.2.description))
      ∧ List.Sorted (· ≤ ·)
          ((List.insertionSort keyLe envs).map (fun p => p.2.envName))
      ∧ (∀ p ∈ List.insertionSort keyLe envs,
          (ljust p.2.envName (listWidth envs)).length = listWidth envs)
      ∧ run w caps args = ([.loadConfig, .listEnv], .exited 0) := by
  have hEq : listEnv envs = .ok ((ljust "NAME" (listWidth envs) ++ "DESCRIPTION") ::
      (List.insertionSort keyLe envs).map
        (fun p => ljust p.2.envName (listWidth envs) ++ p.2.description)) := by
    unfold listEnv
    rw [isEmpty_false_of_ne_nil hne]
    rfl
  refine ⟨hEq, sortedEnvs_names_sorted envs hk, ?_, ?_⟩
  · intro p hp
    have hpe : p ∈ envs := (List.mem_insertionSort keyLe).mp hp
    have hlen : p.1.length ≤ (envs.map (fun q => q.1.length)).foldl max 0 :=
      mem_le_foldl_max
        (List.mem_map_of_mem (fun q : String × Env => q.1.length) hpe) 0
    refine ljust_length _ _ ?_
    rw [← hk p hpe]
    unfold listWidth
    omega
  · unfold run
    rw [hload]
    dsimp only
    rw [hEq]
    simp [hl, hs]

/-- C9, witness at a concrete two-environment mapping. -/
theorem claim9_witness :
    run { loadConfig := .ok [("b", { envName := "b", description := "bb" }),
        ("a", { envName := "a", description := "aa" })] } [] { list := true } =
      ([.loadConfig, .listEnv], .exited 0) :=
  (claim9_list_table
    [("b", { envName := "b", description := "bb" }),
      ("a", { envName := "a", description := "aa" })]
    { loadConfig := .ok [("b", { envName := "b", description := "bb" }),
        ("a", { envName := "a", description := "aa" })] } [] { list := true }
    (by decide) (by decide) rfl rfl rfl).2.2.2

/-! ### Claim C4 -/

/-- With both `--update` and `--rebuild` set, the action phase raises the
invalid-action `RuntimeError` immediately, before any adapter call. -/
theorem runActions_invalid {w : World} {args : Args} {ctx : ExecContext}
    (hu : args.update = true) (hr : args.rebuild = true) :
    runActions w args ctx
      = ([], caughtRTE args.debug "Invalid action --update --rebuild") := by
  unfold runActions
  rw [hu, hr]
  rfl

/-- Under `--update --rebuild`, `runSelected` can only produce one of the
two adapter-free traces. -/
theorem runSelected_trace_invalid {w : World} {caps : List String}
    {args : Args} {conf : List (String × Env)} {name : String}
    (hu : args.update = true) (hr : args.rebuild = true) :
    (runSelected w caps args conf name).1 = [.loadConfig, .getEnv name]
      ∨ (runSelected w caps args conf name).1
        = [.loadConfig, .getEnv name, .showEnv] := by
  unfold runSelected
  cases getEnv conf name with
  | error m => left; rfl
  | ok env =>
    dsimp only
    cases applyCommandLineOverride w.resolve caps args env with
    | error e => left; rfl
    | ok env2 =>
      dsimp only
      cases w.prepare env2 args.args with
      | error m => left; rfl
      | ok ctx =>
        dsimp only
        by_cases hsf : args.showFlag = true
        · rw [if_pos hsf]; right; rfl
        · rw [if_neg hsf]
          rw [runActions_invalid hu hr]
          left; rfl

/-- C4, counterexample: a `--list --update --rebuild` invocation exits 0
via the listing path; no invalid-action error is raised, refuting the
claim's "for every invocation ... fails with an invalid-action error". -/
theorem claim4_counterexample :
    Args.update { list := true, update := true, rebuild := true } = true
      ∧ Args.rebuild { list := true, update := true, rebuild := true } = true
      ∧ run { loadConfig := .ok [("dev", { envName := "dev" })] } []
          { list := true, update := true, rebuild := true }
        = ([.loadConfig, .listEnv], .exited 0) :=
  ⟨rfl, rfl, by rfl⟩

/-- C4, amended: with both `--update` and `--rebuild` set, the adapter's
update, setup-image and setup-pod operations are never called in any
invocation; and every invocation that reaches the action phase (config
loaded, environment selected, overrides and compilation succeeded,
`--list` and `--show` unset) fails with the invalid-action `RuntimeError`
(reported with exit 1, or re-raised under `--debug`). -/
theorem claim4_update_rebuild (w : World) (caps : List String) (args : Args)
    (hu : args.update = true) (hr : args.rebuild = true) :
    (Event.updateImage ∉ (run w caps args).1
      ∧ Event.setupImage ∉ (run w caps args).1
      ∧ Event.setupPod ∉ (run w caps args).1)
    ∧ (∀ conf name env env2 ctx,
        args.list = false → args.showFlag = false →
        w.loadConfig = .ok conf → args.env = some name → name ≠ "" →
        getEnv conf name = .ok env →
        applyCommandLineOverride w.resolve caps args env = .ok env2 →
        w.prepare env2 args.args = .ok ctx →
        (run w caps args).2
          = caughtRTE args.debug "Invalid action --update --rebuild") := by
  constructor
  · unfold run
    cases hL : w.loadConfig with
    | error m => simp
    | ok conf =>
      dsimp only
      split
      · split <;> simp
      · split
        · simp
        · rename_i nm heq
          rcases @runSelected_trace_invalid w caps args conf nm hu hr
            with h | h <;> rw [h] <;> simp
  · intro conf name env env2 ctx hlist hshow hload henv hn hget hov hprep
    rw [run_toSelected hlist hload henv hn,
        runSelected_toActions hshow hget hov hprep]
    rw [runActions_invalid hu hr]

/-- C4, witness for the amended theorem: a concrete `--update --rebuild`
invocation that reaches the action phase. -/
theorem claim4_witness :
    (Event.updateImage ∉ (run { loadConfig := .ok [("dev", { envName := "dev" })] }
        [] { update := true, rebuild := true, env := some "dev" }).1
      ∧ Event.setupImage ∉ (run { loadConfig := .ok [("dev", { envName := "dev" })] }
        [] { update := true, rebuild := true, env := some "dev" }).1
      ∧ Event.setupPod ∉ (run { loadConfig := .ok [("dev", { envName := "dev" })] }
        [] { update := true, rebuild := true, env := some "dev" }).1)
    ∧ (run { loadConfig := .ok [("dev", { envName := "dev" })] }
        [] { update := true, rebuild := true, env := some "dev" }).2
      = caughtRTE false "Invalid action --update --rebuild" :=
  ⟨(claim4_update_rebuild _ [] _ rfl rfl).1,
    (claim4_update_rebuild _ [] _ rfl rfl).2 [("dev", { envName := "dev" })]
      "dev" { envName := "dev" } { envName := "dev" } {} rfl rfl rfl rfl
      (by decide) rfl (by rfl) rfl⟩

/-! ### Claim C5 -/

/-- Without the `--update --rebuild` conflict and with a successful
`updateImage` (when requested), the action phase continues into setup. -/
theorem runActions_no_invalid {w : World} {args : Args} {ctx : ExecContext}
    (hnoboth : args.update = true → args.rebuild = false)
    (hupd : args.update = true → w.updateImage = none) :
    runActions w args ctx
      = ((if args.update then Event.updateImage :: (runSetup w args ctx).1
          else (runSetup w args ctx).1),
        (runSetup w args ctx).2) := by
  unfold runActions
  by_cases hu : args.update = true
  · simp only [hu, if_true]
    rw [hnoboth hu]
    simp only [Bool.false_eq_true, if_false]
    rw [hupd hu]
  · simp only [hu, Bool.false_eq_true, if_false]

/-- With both setup calls succeeding, setup continues into the execute
tail. -/
theorem runSetup_ok {w : World} {args : Args} {ctx : ExecContext}
    (hsi : w.setupImage = none) (hsp : w.setupPod = none) :
    runSetup w args ctx
      = ([.setupImage, .setupPod] ++ (runExecuteTasks w args ctx).1,
        (runExecuteTasks w args ctx).2) := by
  unfold runSetup
  rw [hsi]
  dsimp only
  rw [hsp]

/-- A failing `killPod` whose error is a `RuntimeError` is swallowed: the
execute tail is identical to the one of a world whose kill succeeds. -/
theorem runExecuteTasks_kill_swallowed {w : World} {args : Args}
    {ctx : ExecContext} {m : String}
    (hk : w.killPod = .error (.runtimeError m)) :
    runExecuteTasks w args ctx
      = runExecuteTasks { w with killPod := .ok () } args ctx := by
  unfold runExecuteTasks
  dsimp only
  rw [hk]
  rfl

/-- C5: when an interrupt arrives during EXECUTE, the kill adapter call
appears at most once in the trace, a `RuntimeError` failure of the kill
never changes the run's result, and the final exit code is non-zero. -/
theorem claim5_interrupt_kill (w : World) (caps : List String) (args : Args)
    (conf : List (String × Env)) (name : String) (env env2 : Env)
    (ctx : ExecContext)
    (hlist : args.list = false) (hshow : args.showFlag = false)
    (hload : w.loadConfig = .ok conf) (henv : args.env = some name)
    (hn : name ≠ "") (hget : getEnv conf name = .ok env)
    (hov : applyCommandLineOverride w.resolve caps args env = .ok env2)
    (hprep : w.prepare env2 args.args = .ok ctx)
    (hnoboth : args.update = true → args.rebuild = false)
    (hupd : args.update = true → w.updateImage = none)
    (hsi : w.setupImage = none) (hsp : w.setupPod = none)
    (hpre : w.preTasks = none)
    (hexec : w.executePod = .interrupted) :
    List.countP Event.isKill (run w caps args).1 ≤ 1
      ∧ (∀ m, w.killPod = .error (.runtimeError m) →
          run w caps args = run { w with killPod := .ok () } caps args)
      ∧ (run w caps args).2.exitCode ≠ 0 := by
  have hchain : run w caps args
      = ([Event.loadConfig, Event.getEnv name] ++ (runActions w args ctx).1,
        (runActions w args ctx).2) := by
    rw [run_toSelected hlist hload henv hn,
      runSelected_toActions hshow hget hov hprep]
  have hact := @runActions_no_invalid w args ctx hnoboth hupd
  have hsetup := @runSetup_ok w args ctx hsi hsp
  refine ⟨?_, ?_, ?_⟩
  · rw [hchain, hact, hsetup]
    unfold runExecuteTasks
    rw [hpre, hexec]
    dsimp only
    cases hk : w.killPod with
    | ok u =>
      cases w.postTasks <;> by_cases hd : args.debug = true <;>
        by_cases hu : args.update = true <;>
        simp [hd, hu, Event.isKill]
    | error e =>
      cases he : e.isRuntimeError <;> cases w.postTasks <;>
        by_cases hd : args.debug = true <;>
        by_cases hu : args.update = true <;>
        simp [hd, hu, he, Event.isKill]
  · intro m hk
    have hchain2 : run { w with killPod := .ok () } caps args
        = ([Event.loadConfig, Event.getEnv name]
            ++ (runActions { w with killPod := .ok () } args ctx).1,
          (runActions { w with killPod := .ok () } args ctx).2) := by
      rw [@run_toSelected { w with killPod := .ok () } caps args conf name
          hlist hload henv hn,
        @runSelected_toActions { w with killPod := .ok () } caps args conf
          name env env2 ctx hshow hget hov hprep]
    have hact2 := @runActions_no_invalid { w with killPod := .ok () } args ctx
      hnoboth hupd
    have hsetup2 := @runSetup_ok { w with killPod := .ok () } args ctx hsi hsp
    rw [hchain, hact, hsetup, hchain2, hact2, hsetup2,
      runExecuteTasks_kill_swallowed hk]
  · rw [hchain, hact, hsetup]
    unfold runExecuteTasks
    rw [hpre, hexec]
    dsimp only
    cases hk : w.killPod with
    | ok u =>
      cases w.postTasks <;> by_cases hd : args.debug = true <;>
        simp [hd, Outcome.exitCode]
    | error e =>
      cases he : e.isRuntimeError <;> cases w.postTasks <;>
        by_cases hd : args.debug = true <;>
        simp [hd, he, Outcome.exitCode]

/-- Concrete interrupted world used by the C5 witness. -/
def interruptedWorld : World where
  loadConfig := .ok [("dev", { envName := "dev" })]
  executePod := .interrupted
  killPod := .error (.runtimeError "no such pod")

/-- Concrete arguments used by the C5 witness. -/
def devArgs : Args := { env := some "dev" }

/-- C5, witness: a concrete interrupted run whose kill fails with a
`RuntimeError`. -/
theorem claim5_witness :
    List.countP Event.isKill (run interruptedWorld [] devArgs).1 ≤ 1
      ∧ (∀ m, interruptedWorld.killPod = .error (.runtimeError m) →
          run interruptedWorld [] devArgs
            = run { interruptedWorld with killPod := .ok () } [] devArgs)
      ∧ (run interruptedWorld [] devArgs).2.exitCode ≠ 0 :=
  claim5_interrupt_kill interruptedWorld [] devArgs
    [("dev", { envName := "dev" })] "dev" { envName := "dev" }
    { envName := "dev" } {} rfl rfl rfl rfl (by decide)
    rfl (by rfl) rfl (fun h => by cases h) (fun h => by cases h) rfl rfl rfl rfl

/-! ### Claim C6 -/

/-- Well-formed environ entries never make the environ loop fail. -/
theorem applyEnvironEntries_ok_of_wf (entries : List String) (env : Env)
    (hwf : ∀ s ∈ entries, (splitEq1 s).isOk = true) :
    ∃ env2, applyEnvironEntries entries env = .ok env2 := by
  induction entries generalizing env with
  | nil => exact ⟨env, rfl⟩
  | cons s rest ih =>
    have hs := hwf s (List.mem_cons_self s rest)
    cases hsp : splitEq1 s with
    | error e => rw [hsp] at hs; cases hs
    | ok kv =>
      obtain ⟨env2, h2⟩ := ih _ (fun t ht => hwf t (List.mem_cons_of_mem s ht))
      refine ⟨env2, ?_⟩
      unfold applyEnvironEntries
      rw [hsp]
      exact h2

/-- A truthy `--home` pointing at a non-existing path makes the override
tail fail with the `FileNotFoundError` from `Path.resolve(strict=True)`. -/
theorem applyRestOverride_home_missing {res : String → Option String}
    {args : Args} {p : String} (env2 : Env)
    (hhome : args.home = some p) (hp : p ≠ "") (hres : res p = none) :
    applyRestOverride res args env2 = .error (.fileNotFoundError p) := by
  unfold applyRestOverride
  rw [hhome]
  dsimp only
  rw [truthy_some hp]
  simp only [Option.getD_some, if_true, hres]

/-- C6: a `--home` path that does not exist after expansion fails the
override resolution with the path-resolution error
(`FileNotFoundError`), the run's trace stops at `getEnv` (no adapter
call), and the process exits 1. -/
theorem claim6_home_not_found (w : World) (caps : List String) (args : Args)
    (conf : List (String × Env)) (name : String) (env : Env) (p : String)
    (hlist : args.list = false)
    (hload : w.loadConfig = .ok conf) (henv : args.env = some name)
    (hn : name ≠ "") (hget : getEnv conf name = .ok env)
    (hwf : ∀ s ∈ args.environ, (splitEq1 s).isOk = true)
    (hhome : args.home = some p) (hp : p ≠ "")
    (hres : w.resolve p = none) :
    run w caps args
        = ([.loadConfig, .getEnv name], .uncaught (.fileNotFoundError p))
      ∧ (run w caps args).2.exitCode = 1 := by
  obtain ⟨env2, h2⟩ := applyEnvironEntries_ok_of_wf args.environ
    (applyCapOverrides caps args env) hwf
  have hov : applyCommandLineOverride w.resolve caps args env
      = .error (.fileNotFoundError p) := by
    unfold applyCommandLineOverride
    rw [h2]
    exact applyRestOverride_home_missing env2 hhome hp hres
  have hrun : run w caps args
      = ([.loadConfig, .getEnv name], .uncaught (.fileNotFoundError p)) := by
    rw [run_toSelected hlist hload henv hn,
      runSelected_overrideFails hget hov]
    rfl
  exact ⟨hrun, by rw [hrun]; rfl⟩

/-- C6, witness at a concrete missing home path. -/
theorem claim6_witness :
    run { loadConfig := .ok [("dev", { envName := "dev" })] } []
        { env := some "dev", home := some "/does/not/exist" }
      = ([.loadConfig, .getEnv "dev"],
          .uncaught (.fileNotFoundError "/does/not/exist"))
    ∧ (run { loadConfig := .ok [("dev", { envName := "dev" })] } []
        { env := some "dev", home := some "/does/not/exist" }).2.exitCode = 1 :=
  claim6_home_not_found _ [] _ [("dev", { envName := "dev" })] "dev"
    { envName := "dev" } "/does/not/exist" rfl rfl rfl (by decide) rfl
    (fun s hs => by cases hs) rfl (by decide) rfl

/-! ### Claim C7 -/

/-- A failing `splitEq1` always fails with the unpack `ValueError`. -/
theorem splitEq1_not_ok {s : String} (h : (splitEq1 s).isOk = false) :
    splitEq1 s = .error unpackErr := by
  unfold splitEq1 at h ⊢
  cases hsp : splitCharsOnEq s.data with
  | none => rfl
  | some pr =>
    obtain ⟨pre, post⟩ := pr
    rw [hsp] at h
    cases h

/-- The environ loop fails with the unpack `ValueError` at the first
malformed entry, after consuming the well-formed prefix. -/
theorem applyEnvironEntries_bad (good : List String) (bad : String)
    (rest : List String) (env : Env)
    (hg : ∀ s ∈ good, (splitEq1 s).isOk = true)
    (hb : (splitEq1 bad).isOk = false) :
    applyEnvironEntries (good ++ bad :: rest) env = .error unpackErr := by
  induction good generalizing env with
  | nil =>
    rw [List.nil_append]
    unfold applyEnvironEntries
    dsimp only
    rw [splitEq1_not_ok hb]
  | cons s good' ih =>
    have hs := hg s (List.mem_cons_self s good')
    cases hsp : splitEq1 s with
    | error e => rw [hsp] at hs; cases hs
    | ok kv =>
      obtain ⟨k, v⟩ := kv
      rw [List.cons_append]
      unfold applyEnvironEntries
      dsimp only
      rw [hsp]
      dsimp only
      exact ih _ (fun t ht => hg t (List.mem_cons_of_mem s ht))

/-- Concrete world and arguments for the C7 counterexample: a single
`-e FOO` entry with no `=`. -/
def badEnvironWorld : World := { loadConfig := .ok [("dev", { envName := "dev" })] }

/-- Arguments of the C7 counterexample. -/
def badEnvironArgs : Args := { env := some "dev", environ := ["FOO"] }

/-- C7, counterexample: `-e FOO` (no `=`) makes the run end with an
*uncaught* `ValueError` — not with a `ConfigError` reported at the
orchestration boundary (which would be the `Outcome.failed` shape). -/
theorem claim7_counterexample :
    run badEnvironWorld [] badEnvironArgs
      = ([.loadConfig, .getEnv "dev"], .uncaught unpackErr) := by rfl

/-- C7, amended: an `-e` entry without `=` raises a `ValueError` from the
tuple unpacking; it is not a `RuntimeError`, so the orchestration
boundary's `except RuntimeError` does not catch it and the run dies with
the unclassified exception (uncaught, never the reported-failure
outcome), with or without `--debug`. -/
theorem claim7_malformed_environ (w : World) (caps : List String)
    (args : Args) (conf : List (String × Env)) (name : String) (env : Env)
    (good : List String) (bad : String) (rest : List String)
    (hlist : args.list = false)
    (hload : w.loadConfig = .ok conf) (henv : args.env = some name)
    (hn : name ≠ "") (hget : getEnv conf name = .ok env)
    (hsplit : args.environ = good ++ bad :: rest)
    (hg : ∀ s ∈ good, (splitEq1 s).isOk = true)
    (hb : (splitEq1 bad).isOk = false) :
    run w caps args = ([.loadConfig, .getEnv name], .uncaught unpackErr) := by
  have hov : applyCommandLineOverride w.resolve caps args env
      = .error unpackErr := by
    unfold applyCommandLineOverride
    rw [hsplit, applyEnvironEntries_bad good bad rest _ hg hb]
  rw [run_toSelected hlist hload henv hn,
    runSelected_overrideFails hget hov]
  rfl

/-- C7, witness for the amended theorem. -/
theorem claim7_witness :
    run badEnvironWorld [] { env := some "dev", environ := ["A=1", "FOO"] }
      = ([.loadConfig, .getEnv "dev"], .uncaught unpackErr) :=
  claim7_malformed_environ badEnvironWorld []
    { env := some "dev", environ := ["A=1", "FOO"] }
    [("dev", { envName := "dev" })] "dev" { envName := "dev" }
    ["A=1"] "FOO" [] rfl rfl rfl (by decide) rfl rfl
    (fun s hs => by
      rcases List.mem_singleton.mp hs with h
      rw [h]
      rfl)
    (by rfl)

/-! ### Claim C8 -/

/-- The exit code determined by the EXECUTE phase alone (`podResult` in
`run`): 0 only when the pre-tasks and the pod execution succeed. -/
def executePhaseResult (w : World) : Nat :=
  match w.preTasks with
  | some _ => 1
  | none =>
    match w.executePod with
    | .success => 0
    | _ => 1

/-- Concrete world of the C8 counterexample: successful pod run, failing
post-task. -/
def postFailWorld : World where
  loadConfig := .ok [("dev", { envName := "dev" })]
  postTasks := some "task failed"

/-- Arguments of the C8 counterexample: `--debug` active. -/
def debugDevArgs : Args := { env := some "dev", debug := true }

/-- C8, counterexample: with `--debug` active, a post-task failure after a
successful EXECUTE (pod exit code 0) is re-raised instead of reported, and
the process dies with exit code 1 — the post-task failure does change the
already-determined exit code. -/
theorem claim8_counterexample :
    postFailWorld.executePod = .success
      ∧ run postFailWorld [] debugDevArgs
        = ([.loadConfig, .getEnv "dev", .setupImage, .setupPod, .preTasks,
            .executePod, .postTasks], .uncaught (.runtimeError "task failed"))
      ∧ (run postFailWorld [] debugDevArgs).2.exitCode = 1 :=
  ⟨rfl, by rfl, by rfl⟩

/-- Without `--debug`, a failing post-task phase is reported (the error is
printed) and the exit code stays the one computed by the EXECUTE phase. -/
theorem runExecuteTasks_post_fail {w : World} {args : Args}
    {ctx : ExecContext} {msg : String}
    (hkill : ∀ e, w.killPod = .error e → e.isRuntimeError = true)
    (hdebug : args.debug = false) (hpost : w.postTasks = some msg) :
    Event.report msg ∈ (runExecuteTasks w args ctx).1
      ∧ (runExecuteTasks w args ctx).2 = .exited (executePhaseResult w) := by
  unfold runExecuteTasks executePhaseResult
  cases hpre : w.preTasks with
  | some m => simp [hpost, hdebug]
  | none =>
    cases hex : w.executePod with
    | success => simp [hpost, hdebug]
    | failure m => simp [hpost, hdebug]
    | interrupted =>
      cases hk : w.killPod with
      | ok u => simp [hpost, hdebug]
      | error e =>
        have he := hkill e hk
        simp [hpost, hdebug, he]

/-- C8, amended: in a run without `--debug` that reaches the post-task
phase, a post-task failure is reported but the process exits with the
EXECUTE-phase exit code; in particular a successful pod run still exits 0.
(With `--debug` the failure is re-raised and escalates to exit 1 — the
counterexample.) -/
theorem claim8_post_task_policy (w : World) (caps : List String) (args : Args)
    (conf : List (String × Env)) (name : String) (env env2 : Env)
    (ctx : ExecContext) (msg : String)
    (hlist : args.list = false) (hshow : args.showFlag = false)
    (hload : w.loadConfig = .ok conf) (henv : args.env = some name)
    (hn : name ≠ "") (hget : getEnv conf name = .ok env)
    (hov : applyCommandLineOverride w.resolve caps args env = .ok env2)
    (hprep : w.prepare env2 args.args = .ok ctx)
    (hnoboth : args.update = true → args.rebuild = false)
    (hupd : args.update = true → w.updateImage = none)
    (hsi : w.setupImage = none) (hsp : w.setupPod = none)
    (hkill : ∀ e, w.killPod = .error e → e.isRuntimeError = true)
    (hdebug : args.debug = false) (hpost : w.postTasks = some msg) :
    Event.report msg ∈ (run w caps args).1
      ∧ (run w caps args).2 = .exited (executePhaseResult w)
      ∧ (w.preTasks = none → w.executePod = .success →
          (run w caps args).2 = .exited 0) := by
  have hchain : run w caps args
      = ([Event.loadConfig, Event.getEnv name] ++ (runActions w args ctx).1,
        (runActions w args ctx).2) := by
    rw [run_toSelected hlist hload henv hn,
      runSelected_toActions hshow hget hov hprep]
  have hact := @runActions_no_invalid w args ctx hnoboth hupd
  have hsetup := @runSetup_ok w args ctx hsi hsp
  obtain ⟨hmem, hout⟩ := @runExecuteTasks_post_fail w args ctx msg
    hkill hdebug hpost
  have hout2 : (run w caps args).2 = .exited (executePhaseResult w) := by
    rw [hchain]
    dsimp only
    rw [hact]
    dsimp only
    rw [hsetup]
    exact hout
  refine ⟨?_, hout2, ?_⟩
  · rw [hchain]
    dsimp only
    rw [hact]
    dsimp only
    rw [hsetup]
    by_cases hu : args.update = true <;> simp [hu, hmem]
  · intro h1 h2
    rw [hout2]
    simp [executePhaseResult, h1, h2]

/-- C8, witness: a run without `--debug` with a successful pod execution
and a failing post-task exits 0. -/
theorem claim8_witness :
    Event.report "task failed" ∈ (run postFailWorld [] devArgs).1
      ∧ (run postFailWorld [] devArgs).2
        = .exited (executePhaseResult postFailWorld)
      ∧ (postFailWorld.preTasks = none →
          postFailWorld.executePod = .success →
          (run postFailWorld [] devArgs).2 = .exited 0) :=
  claim8_post_task_policy postFailWorld [] devArgs
    [("dev", { envName := "dev" })] "dev" { envName := "dev" }
    { envName := "dev" } {} "task failed" rfl rfl rfl rfl (by decide) rfl
    (by rfl) rfl (fun h => by cases h) (fun h => by cases h) rfl rfl
    (fun e h => by cases h) rfl rfl

end Podenv
